import Mathlib

/-!
Verification of `src/subcommand/server/error.rs` of okx-ord: the error
taxonomy (`ServerError`, `ApiError`), its conversion to HTTP responses,
the JSON serialization of `ApiError`, and the `ok_or_not_found` adapter.

Shallow embedding conventions:
* `anyhow::Error` (an opaque error value from collaborators) is modelled
  by `Error`, a structure carrying its `Display` rendering.
* `http::HeaderValue` is modelled by its byte content (`List Nat`),
  and `String::from_utf8_lossy` by `utf8Lossy`.
* An HTTP response is modelled by its status code, the headers this
  module explicitly attaches, and its body bytes (as a `String`).
  Side effects on stderr (`eprintln!`) are modelled by returning the
  list of emitted lines alongside the response.
* serde_json rendering of the `Serialize` impl is modelled by
  `renderFields` / `escChars` (serde_json's string escaping).
-/

/-- Model of `anyhow::Error`: an opaque error value; we record only its
`Display` rendering, which is all this module ever consumes. -/
structure Error where
  display : String
deriving DecidableEq, Repr

/-- `error.to_string()` is the `Display` rendering. -/
def Error.to_string (e : Error) : String := e.display

/-- Model of `http::HeaderValue`: its raw byte content. -/
structure HeaderValue where
  bytes : List Nat
deriving DecidableEq, Repr

/-- `HeaderValue::as_bytes`. -/
def HeaderValue.as_bytes (h : HeaderValue) : List Nat := h.bytes

/-- Modelled from the spec: the `AcceptEncoding` newtype is repository
code that is not part of this module; the spec describes it as an
optional string (`NotAcceptable(accept_encoding: optional string, ...)`),
whose inner value `accept_encoding.0` is the literal header value. -/
structure AcceptEncoding where
  val : Option String
deriving DecidableEq, Repr

/-- The replacement character U+FFFD used by `String::from_utf8_lossy`. -/
def utf8ReplacementChar : Char := Char.ofNat 0xFFFD

/-- Is `b` a UTF-8 continuation byte (`0x80..=0xBF`)? -/
def isUtf8Cont (b : Nat) : Bool := 0x80 ≤ b && b ≤ 0xBF

/-- Valid range of the first continuation byte after a three-byte lead
(per `core::str`'s UTF-8 validation: `0xE0` requires `0xA0..=0xBF`,
`0xED` requires `0x80..=0x9F`, the rest `0x80..=0xBF`). -/
def utf8ThreeByteContOk (b c1 : Nat) : Bool :=
  if b = 0xE0 then 0xA0 ≤ c1 && c1 ≤ 0xBF
  else if b = 0xED then 0x80 ≤ c1 && c1 ≤ 0x9F
  else isUtf8Cont c1

/-- Valid range of the first continuation byte after a four-byte lead
(`0xF0` requires `0x90..=0xBF`, `0xF4` requires `0x80..=0x8F`). -/
def utf8FourByteContOk (b c1 : Nat) : Bool :=
  if b = 0xF0 then 0x90 ≤ c1 && c1 ≤ 0xBF
  else if b = 0xF4 then 0x80 ≤ c1 && c1 ≤ 0x8F
  else isUtf8Cont c1

/-- Fuel-indexed UTF-8 lossy decoding: each step consumes at least one
byte, so fuel equal to the byte count suffices. Invalid sequences are
replaced per `String::from_utf8_lossy`: a maximal valid prefix of a
multi-byte sequence (or a single invalid byte) becomes one U+FFFD and
decoding resumes at the offending byte; an incomplete sequence at the
end of input becomes a single trailing U+FFFD. -/
def utf8LossyAux : Nat → List Nat → List Char
  | 0, _ => []
  | _ + 1, [] => []
  | fuel + 1, b :: rest =>
    if b < 0x80 then Char.ofNat b :: utf8LossyAux fuel rest
    else if b < 0xC2 then utf8ReplacementChar :: utf8LossyAux fuel rest
    else if b ≤ 0xDF then
      match rest with
      | [] => [utf8ReplacementChar]
      | c1 :: rest1 =>
        if isUtf8Cont c1 then
          Char.ofNat ((b - 0xC0) * 0x40 + (c1 - 0x80)) :: utf8LossyAux fuel rest1
        else utf8ReplacementChar :: utf8LossyAux fuel rest
    else if b ≤ 0xEF then
      match rest with
      | [] => [utf8ReplacementChar]
      | c1 :: rest1 =>
        if utf8ThreeByteContOk b c1 then
          match rest1 with
          | [] => [utf8ReplacementChar]
          | c2 :: rest2 =>
            if isUtf8Cont c2 then
              Char.ofNat ((b - 0xE0) * 0x1000 + (c1 - 0x80) * 0x40 + (c2 - 0x80)) ::
                utf8LossyAux fuel rest2
            else utf8ReplacementChar :: utf8LossyAux fuel rest1
        else utf8ReplacementChar :: utf8LossyAux fuel rest
    else if b ≤ 0xF4 then
      match rest with
      | [] => [utf8ReplacementChar]
      | c1 :: rest1 =>
        if utf8FourByteContOk b c1 then
          match rest1 with
          | [] => [utf8ReplacementChar]
          | c2 :: rest2 =>
            if isUtf8Cont c2 then
              match rest2 with
              | [] => [utf8ReplacementChar]
              | c3 :: rest3 =>
                if isUtf8Cont c3 then
                  Char.ofNat ((b - 0xF0) * 0x40000 + (c1 - 0x80) * 0x1000 +
                      (c2 - 0x80) * 0x40 + (c3 - 0x80)) :: utf8LossyAux fuel rest3
                else utf8ReplacementChar :: utf8LossyAux fuel rest2
            else utf8ReplacementChar :: utf8LossyAux fuel rest1
        else utf8ReplacementChar :: utf8LossyAux fuel rest
    else utf8ReplacementChar :: utf8LossyAux fuel rest

/-- `String::from_utf8_lossy` on a byte list. -/
def utf8Lossy (l : List Nat) : List Char := utf8LossyAux l.length l

/-- `StatusCode::canonical_reason` (http crate), restricted to the
status codes this module uses. -/
def canonicalReason : Nat → Option String
  | 400 => some "Bad Request"
  | 404 => some "Not Found"
  | 406 => some "Not Acceptable"
  | 500 => some "Internal Server Error"
  | _ => none

/-- An HTTP response as produced by this module: status code, the
headers explicitly attached here (axum's implicit Content-Type is an
external concern), and the body. -/
structure Response where
  status : Nat
  headers : List (String × String)
  body : String
deriving DecidableEq, Repr

/-- The `ServerError` enum. -/
inductive ServerError
  | BadRequest (message : String)
  | Internal (error : Error)
  | NotAcceptable (accept_encoding : AcceptEncoding) (content_encoding : HeaderValue)
  | NotFound (message : String)
deriving DecidableEq, Repr

/-- `impl IntoResponse for ServerError`. The second component is the
list of lines emitted to stderr by `eprintln!` during the conversion. -/
def ServerError.into_response : ServerError → Response × List String
  | .BadRequest message => (⟨400, [], message⟩, [])
  | .Internal error =>
      (⟨500, [], (canonicalReason 500).getD ""⟩,
       ["error serving request: " ++ error.display])
  | .NotAcceptable accept_encoding content_encoding =>
      let message :=
        "inscription content encoding `" ++
          String.mk (utf8Lossy content_encoding.as_bytes) ++ "` is not acceptable."
      let message :=
        match accept_encoding.val with
        | some a => message ++ " `Accept-Encoding` header: `" ++ a ++ "`"
        | none => message ++ " `Accept-Encoding` header not present"
      (⟨406, [], message⟩, [])
  | .NotFound message =>
      (⟨404, [("cache-control", "no-store")], message⟩, [])

/-- `OptionExt::ok_or_not_found` (the type parameter is explicit so the
`none` case can be stated without named arguments). -/
def ok_or_not_found (T : Type) (o : Option T) (f : Unit → String) :
    Except ServerError T :=
  match o with
  | some value => Except.ok value
  | none => Except.error (ServerError.NotFound (f () ++ " not found"))

/-- `impl From<Error> for ServerError`. -/
def ServerError.from_error (error : Error) : ServerError := .Internal error

/-- The `ApiError` enum. -/
inductive ApiError
  | Internal (msg : String)
  | BadRequest (msg : String)
  | NotFound (msg : String)
deriving DecidableEq, Repr

/-- `ApiError::code`: the fixed i32 discriminant of each variant. -/
def ApiError.code : ApiError → Int
  | .Internal _ => 1
  | .BadRequest _ => 2
  | .NotFound _ => 3

/-- The carried message (the `msg` bound by the or-pattern in the
`Serialize` impl). -/
def ApiError.msg : ApiError → String
  | .Internal m => m
  | .BadRequest m => m
  | .NotFound m => m

/-- `ApiError::internal` (on a `String`, `to_string` is the identity). -/
def ApiError.internal (message : String) : ApiError := .Internal message

/-- `ApiError::bad_request`. -/
def ApiError.bad_request (message : String) : ApiError := .BadRequest message

/-- `ApiError::not_found`. -/
def ApiError.not_found (message : String) : ApiError := .NotFound message

/-- `impl From<anyhow::Error> for ApiError`: `Self::internal(error)`
stringifies the cause. -/
def ApiError.from_error (error : Error) : ApiError :=
  ApiError.internal error.to_string

/-- A serialized JSON field value: this module only ever emits an
integer (`code`) or a string (`msg`). -/
inductive JValue
  | num (n : Int)
  | str (s : String)
deriving DecidableEq, Repr

/-- `impl Serialize for ApiError` at the serde data-model level: a
struct of exactly two fields, `"code"` then `"msg"`. -/
def ApiError.serializeFields (e : ApiError) : List (String × JValue) :=
  [("code", JValue.num e.code), ("msg", JValue.str e.msg)]

/-- Does serde_json escape this character in a JSON string? -/
def needsEscape (c : Char) : Bool :=
  c == '"' || c == '\\' || decide (c.toNat < 0x20)

/-- Lowercase hexadecimal digit, as serde_json renders `\u00XX`. -/
def hexDigitChar (n : Nat) : Char :=
  if n < 10 then Char.ofNat (48 + n) else Char.ofNat (87 + n)

/-- serde_json's escaping of one character inside a JSON string:
`"` and `\` get a backslash, the named control escapes are used for
0x08, 0x09, 0x0A, 0x0C, 0x0D, other control characters become
`\u00XX` with lowercase hex, everything else is emitted verbatim. -/
def jsonEscapeChar (c : Char) : List Char :=
  if c = '"' then ['\\', '"']
  else if c = '\\' then ['\\', '\\']
  else if c.toNat = 0x08 then ['\\', 'b']
  else if c.toNat = 0x09 then ['\\', 't']
  else if c.toNat = 0x0A then ['\\', 'n']
  else if c.toNat = 0x0C then ['\\', 'f']
  else if c.toNat = 0x0D then ['\\', 'r']
  else if c.toNat < 0x20 then
    ['\\', 'u', '0', '0', hexDigitChar (c.toNat / 16), hexDigitChar (c.toNat % 16)]
  else [c]

/-- serde_json's escaping of a whole string (without the delimiters). -/
def escChars : List Char → List Char
  | [] => []
  | c :: cs => jsonEscapeChar c ++ escChars cs

/-- serde_json rendering of one field value. -/
def JValue.render : JValue → String
  | .num n => toString n
  | .str s => "\"" ++ String.mk (escChars s.data) ++ "\""

/-- serde_json rendering of an object's fields, comma-separated. -/
def renderFields : List (String × JValue) → String
  | [] => ""
  | [(k, v)] => "\"" ++ String.mk (escChars k.data) ++ "\":" ++ v.render
  | (k, v) :: rest =>
      "\"" ++ String.mk (escChars k.data) ++ "\":" ++ v.render ++ "," ++ renderFields rest

/-- `serde_json::to_string` applied to the `Serialize` impl of
`ApiError`. -/
def ApiError.to_json_string (e : ApiError) : String :=
  "\x7b" ++ renderFields e.serializeFields ++ "\x7d"

/-- `impl IntoResponse for ApiError`: status from the variant, body the
JSON rendering (`axum::Json`). -/
def ApiError.into_response (e : ApiError) : Response :=
  let status_code : Nat :=
    match e with
    | .Internal _ => 500
    | .BadRequest _ => 400
    | .NotFound _ => 404
  ⟨status_code, [], e.to_json_string⟩

example : (ApiError.internal "internal error").to_json_string =
    "\x7b\"code\":1,\"msg\":\"internal error\"\x7d" := by decide

example : (ApiError.bad_request "bad request").to_json_string =
    "\x7b\"code\":2,\"msg\":\"bad request\"\x7d" := by decide

example : (ApiError.not_found "not found").to_json_string =
    "\x7b\"code\":3,\"msg\":\"not found\"\x7d" := by decide

example : String.mk (utf8Lossy [0x62, 0x72]) = "br" := by decide

example : ((ServerError.NotAcceptable ⟨some "gzip, deflate"⟩ ⟨[0x62, 0x72]⟩).into_response).1.body =
    "inscription content encoding `br` is not acceptable. `Accept-Encoding` header: `gzip, deflate`" := by
  decide

/-- Claim C1: serializing `ApiError::internal(m)` yields exactly the two
fields `"code"` (value 1) then `"msg"` (value `m`), `bad_request(m)`
code 2, `not_found(m)` code 3 — exactly two fields, in this order, with
the variant's fixed discriminant, and no other fields. -/
theorem api_error_serialize_fields_exact (m : String) :
    (ApiError.internal m).serializeFields = [("code", JValue.num 1), ("msg", JValue.str m)]
    ∧ (ApiError.bad_request m).serializeFields = [("code", JValue.num 2), ("msg", JValue.str m)]
    ∧ (ApiError.not_found m).serializeFields = [("code", JValue.num 3), ("msg", JValue.str m)] :=
  ⟨rfl, rfl, rfl⟩

/-- Claim C2: the variant-to-status mapping is total and exhaustive:
`ServerError.BadRequest` → 400, `Internal` → 500, `NotAcceptable` → 406,
`NotFound` → 404; `ApiError.Internal` → 500, `BadRequest` → 400,
`NotFound` → 404; and the body of a `ServerError.BadRequest` response is
the carried message verbatim. -/
theorem status_mapping_total :
    (∀ m : String, ((ServerError.BadRequest m).into_response).1.status = 400
      ∧ ((ServerError.BadRequest m).into_response).1.body = m)
    ∧ (∀ c : Error, ((ServerError.Internal c).into_response).1.status = 500)
    ∧ (∀ (ae : AcceptEncoding) (ce : HeaderValue),
        ((ServerError.NotAcceptable ae ce).into_response).1.status = 406)
    ∧ (∀ m : String, ((ServerError.NotFound m).into_response).1.status = 404)
    ∧ (∀ m : String, (ApiError.Internal m).into_response.status = 500)
    ∧ (∀ m : String, (ApiError.BadRequest m).into_response.status = 400)
    ∧ (∀ m : String, (ApiError.NotFound m).into_response.status = 404) :=
  ⟨fun _ => ⟨rfl, rfl⟩, fun _ => rfl, fun _ _ => rfl, fun _ => rfl,
   fun _ => rfl, fun _ => rfl, fun _ => rfl⟩

/-- Claim C3: for every opaque cause, the client-visible response of
`ServerError.Internal` is status 500 with the fixed body
"Internal Server Error" (the canonical reason phrase), so the response
is identical for any two causes and no detail of the cause reaches the
client. -/
theorem internal_response_generic :
    (∀ c : Error, ((ServerError.Internal c).into_response).1 =
      ⟨500, [], "Internal Server Error"⟩)
    ∧ (∀ c1 c2 : Error,
        ((ServerError.Internal c1).into_response).1 =
        ((ServerError.Internal c2).into_response).1) :=
  ⟨fun _ => rfl, fun _ _ => rfl⟩

/-- Claim C4: the `NotAcceptable` body follows the exact template: the
loss-tolerantly decoded `content_encoding` between backticks, then
either the literal `Accept-Encoding` value or the fixed
"header not present" phrase; in particular `br` with
`Some("gzip, deflate")` gives the exact sentence of the spec, and with
no `Accept-Encoding` the body ends with the fixed phrase. -/
theorem not_acceptable_message_template :
    (∀ (ae : AcceptEncoding) (ce : HeaderValue),
      ((ServerError.NotAcceptable ae ce).into_response).1.body =
        ("inscription content encoding `" ++ String.mk (utf8Lossy ce.as_bytes) ++
          "` is not acceptable.") ++
        (match ae.val with
         | some a => " `Accept-Encoding` header: `" ++ a ++ "`"
         | none => " `Accept-Encoding` header not present"))
    ∧ ((ServerError.NotAcceptable ⟨some "gzip, deflate"⟩ ⟨[0x62, 0x72]⟩).into_response).1.body =
        "inscription content encoding `br` is not acceptable. `Accept-Encoding` header: `gzip, deflate`"
    ∧ (∀ ce : HeaderValue,
        ((ServerError.NotAcceptable ⟨none⟩ ce).into_response).1.body =
          ("inscription content encoding `" ++ String.mk (utf8Lossy ce.as_bytes) ++
            "` is not acceptable.") ++ " `Accept-Encoding` header not present") :=
  ⟨fun ae ce => by
    cases ae with
    | mk val =>
      cases val with
      | none => rfl
      | some a => simp only [ServerError.into_response, String.append_assoc],
   by decide,
   fun _ => rfl⟩

/-- Claim C5: `ServerError.NotFound(m)` responds 404 with body `m` and
the header `Cache-Control: no-store`; the other variants attach no
headers at all (in particular no Cache-Control). -/
theorem not_found_cache_control :
    (∀ m : String, ((ServerError.NotFound m).into_response).1 =
      ⟨404, [("cache-control", "no-store")], m⟩)
    ∧ (∀ m : String, ((ServerError.BadRequest m).into_response).1.headers = [])
    ∧ (∀ c : Error, ((ServerError.Internal c).into_response).1.headers = [])
    ∧ (∀ (ae : AcceptEncoding) (ce : HeaderValue),
        ((ServerError.NotAcceptable ae ce).into_response).1.headers = []) :=
  ⟨fun _ => rfl, fun _ => rfl, fun _ => rfl, fun ae _ => by cases ae with
    | mk val => cases val <;> rfl⟩

/-- Claim C6: `ok_or_not_found` returns `Ok(v)` on `Some(v)`, fails
exactly on `None`, and the error is then `ServerError.NotFound` with
message the label followed by the literal suffix " not found". -/
theorem ok_or_not_found_spec :
    ∀ (T : Type) (f : Unit → String),
      (∀ v : T, ok_or_not_found T (some v) f = Except.ok v)
      ∧ ok_or_not_found T none f =
          Except.error (ServerError.NotFound (f () ++ " not found"))
      ∧ (∀ o : Option T,
          (∃ e, ok_or_not_found T o f = Except.error e) ↔ o = none) := by
  intro T f
  refine ⟨fun _ => rfl, rfl, fun o => ?_⟩
  cases o with
  | none => exact ⟨fun _ => rfl, fun _ => ⟨_, rfl⟩⟩
  | some v =>
    constructor
    · rintro ⟨e, h⟩
      exact absurd h (by simp [ok_or_not_found])
    · intro h
      exact absurd h (by simp)

/-- Claim C7: on a present value the outcome of `ok_or_not_found` is
`Ok(v)` independently of the label function: any two label functions
give the identical result. -/
theorem label_function_not_evaluated :
    ∀ (T : Type) (v : T) (f1 f2 : Unit → String),
      ok_or_not_found T (some v) f1 = Except.ok v
      ∧ ok_or_not_found T (some v) f2 = Except.ok v
      ∧ ok_or_not_found T (some v) f1 = ok_or_not_found T (some v) f2 :=
  fun _ _ _ _ => ⟨rfl, rfl, rfl⟩

/-- Claim C8: converting an opaque error value is total (the Lean
functions are total by construction) and always yields the `Internal`
variant: for `ServerError` preserving the cause itself, for `ApiError`
carrying the stringified cause. -/
theorem from_error_total_internal :
    ∀ e : Error, ServerError.from_error e = ServerError.Internal e
      ∧ ApiError.from_error e = ApiError.Internal e.to_string :=
  fun _ => ⟨rfl, rfl⟩

/-- Claim C9: converting `ServerError.Internal(cause)` to a response
emits exactly one stderr line, containing the full cause; every other
variant emits nothing. -/
theorem internal_logged_once :
    (∀ c : Error, ((ServerError.Internal c).into_response).2 =
      ["error serving request: " ++ c.display])
    ∧ (∀ m : String, ((ServerError.BadRequest m).into_response).2 = [])
    ∧ (∀ (ae : AcceptEncoding) (ce : HeaderValue),
        ((ServerError.NotAcceptable ae ce).into_response).2 = [])
    ∧ (∀ m : String, ((ServerError.NotFound m).into_response).2 = []) :=
  ⟨fun _ => rfl, fun _ => rfl, fun ae _ => by cases ae with
    | mk val => cases val <;> rfl, fun _ => rfl⟩

/-- A character that serde_json does not escape is emitted verbatim. -/
theorem jsonEscapeChar_of_not_escaped (c : Char) (h : needsEscape c = false) :
    jsonEscapeChar c = [c] := by
  have h' : ¬c = '"' ∧ ¬c = '\\' ∧ ¬c.toNat < 0x20 := by
    simpa [needsEscape, Bool.or_eq_false_iff, beq_eq_false_iff_ne,
      decide_eq_false_iff_not, and_assoc] using h
  obtain ⟨h1, h2, h3⟩ := h'
  rw [jsonEscapeChar, if_neg h1, if_neg h2, if_neg (fun g => h3 (by omega)),
    if_neg (fun g => h3 (by omega)), if_neg (fun g => h3 (by omega)),
    if_neg (fun g => h3 (by omega)), if_neg (fun g => h3 (by omega)), if_neg h3]

/-- Every escape expands to at least one character. -/
theorem jsonEscapeChar_length_pos (c : Char) : 1 ≤ (jsonEscapeChar c).length := by
  unfold jsonEscapeChar
  split_ifs <;> simp

/-- An escaped character expands to at least two characters. -/
theorem jsonEscapeChar_length_of_escaped (c : Char) (h : needsEscape c = true) :
    2 ≤ (jsonEscapeChar c).length := by
  unfold jsonEscapeChar
  split_ifs <;> simp_all [needsEscape]

/-- Escaping never shortens a string. -/
theorem length_le_escChars (l : List Char) : l.length ≤ (escChars l).length := by
  induction l with
  | nil => simp [escChars]
  | cons c cs ih =>
    rw [escChars, List.length_append, List.length_cons]
    have := jsonEscapeChar_length_pos c
    omega

/-- serde_json's escaping is the identity exactly on strings with no
character that requires escaping. -/
theorem escChars_eq_self_iff (l : List Char) :
    escChars l = l ↔ ∀ c ∈ l, needsEscape c = false := by
  induction l with
  | nil => simp [escChars]
  | cons c cs ih =>
    constructor
    · intro h
      have hc : needsEscape c = false := by
        by_contra hc
        have hc' : needsEscape c = true := by simpa using hc
        have hlen := congrArg List.length h
        rw [escChars, List.length_append, List.length_cons] at hlen
        have h2 := jsonEscapeChar_length_of_escaped c hc'
        have h3 := length_le_escChars cs
        omega
      have he : jsonEscapeChar c = [c] := jsonEscapeChar_of_not_escaped c hc
      rw [escChars, he] at h
      have htail : escChars cs = cs := by simpa using h
      intro d hd
      rcases List.mem_cons.mp hd with hdc | hmem
      · exact hdc ▸ hc
      · exact (ih.mp htail) d hmem
    · intro h
      rw [escChars, jsonEscapeChar_of_not_escaped c (h c (List.mem_cons_self c cs)),
        ih.mpr (fun d hd => h d (List.mem_cons_of_mem c hd))]
      rfl

/-- Cancel a common prefix and suffix of a string concatenation. -/
theorem string_append_middle_cancel (a b x y : String) :
    a ++ (x ++ b) = a ++ (y ++ b) ↔ x = y := by
  constructor
  · intro h
    have hd := congrArg String.data h
    simp only [String.data_append] at hd
    have hx := List.append_cancel_right (List.append_cancel_left hd)
    exact String.ext hx
  · intro h
    rw [h]

/-- Claim C10: the `"msg"` field is the standard JSON string encoding of
the message (escaping `"` , `\` and control characters), so the output
contains the escaped form, and the literal byte template
`{"code":1,"msg":"<m>"}` with `m` inserted verbatim holds exactly for
messages containing no character that requires escaping. -/
theorem api_error_json_escaping (m : String) :
    (ApiError.internal m).to_json_string =
      "\x7b\"code\":1,\"msg\":\"" ++ (String.mk (escChars m.data) ++ "\"\x7d")
    ∧ ((ApiError.internal m).to_json_string =
        "\x7b\"code\":1,\"msg\":\"" ++ (m ++ "\"\x7d")
       ↔ ∀ c ∈ m.data, needsEscape c = false)
    ∧ (ApiError.internal "a\"b\\c\nd").to_json_string =
        "\x7b\"code\":1,\"msg\":\"a\\\"b\\\\c\\nd\"\x7d" := by
  have h1 : (ApiError.internal m).to_json_string =
      "\x7b\"code\":1,\"msg\":\"" ++ (String.mk (escChars m.data) ++ "\"\x7d") := by
    simp only [ApiError.to_json_string, ApiError.serializeFields, ApiError.internal,
      ApiError.code, ApiError.msg, renderFields, JValue.render, String.append_assoc]
    rfl
  refine ⟨h1, ?_, by decide⟩
  rw [h1, string_append_middle_cancel]
  obtain ⟨data⟩ := m
  constructor
  · intro h
    have : escChars data = data := by injection h
    exact (escChars_eq_self_iff data).mp this
  · intro h
    exact congrArg String.mk ((escChars_eq_self_iff data).mpr h)
